import Mathlib

/-! ChartMuseum: authorization engine, ingestion handlers and repository configuration.

A shallow embedding of

* `pkg/chartmuseum/router/authorization.go` (`repoActionAllowed`, `authorizeRequest`,
  `extractRequestToken`),
* `pkg/chartmuseum/handlers.go` (`extractAndValidateFormFile`, the three upload handlers and
  `getOrgRepoIndexFileRequestHandler`),
* `pkg/config/repo.go` (`GetRepoConfig`).

Go strings are embedded as Lean strings, byte slices as lists of naturals, Go maps with at
most one entry as association lists, and `error` values as `Option String` (`none` is `nil`).
Library code that is not part of the repository (the steps of the JWT parser, the storage
backend, the filename derivation functions, the configuration accessors, the YAML decoder) is
a parameter of the functions that call it. A Go call that may panic returns an `Option`, with
`none` for the panic.
-/

namespace ChartMuseum

/-! ## Go standard-library string helpers -/

/-- Worker of `strings.Split` for a non-empty separator, by structural recursion on the text.
`skip` counts the characters of an already matched separator that are still to be dropped and
`cur` holds the current piece, reversed. Matches are found left to right and do not overlap. -/
def splitGo (sep : List Char) : List Char → Nat → List Char → List (List Char)
  | [], _, cur => [cur.reverse]
  | _ :: cs, skip + 1, cur => splitGo sep cs skip cur
  | c :: cs, 0, cur =>
      if sep.isPrefixOf (c :: cs) then cur.reverse :: splitGo sep cs (sep.length - 1) []
      else splitGo sep cs 0 (c :: cur)

/-- Go `strings.Split(s, sep)`: the substrings of `s` between the occurrences of `sep`; with an
empty separator the text is exploded into its characters. -/
def stringsSplit (s sep : String) : List String :=
  if sep.data = [] then s.data.map (fun c => String.mk [c])
  else (splitGo sep.data s.data 0 []).map String.mk

/-- Go `strings.Replace(s, old, new, -1)`: every non-overlapping occurrence of `old` is replaced
by `new`; with an empty `old` the replacement is inserted before every character and at the
end. -/
def stringsReplaceAll (s old new : String) : String :=
  if old.data = [] then
    String.mk (new.data ++ (s.data.map (fun c => c :: new.data)).flatten)
  else String.mk (List.intercalate new.data (splitGo old.data s.data 0 []))

/-! ## Authorization (`router/authorization.go`) -/

/-- Go `type action string`. -/
abbrev action := String

/-- Modelled from the spec: the constant `RepoPullAction` is declared outside the files at hand;
the spec names the read scope "pull". -/
def RepoPullAction : action := "pull"

/-- Modelled from the spec: the constant `RepoPushAction` is declared outside the files at hand;
the spec names the write action "push". -/
def RepoPushAction : action := "push"

/-- Go `AccessEntry`; the field `Type` is spelled `Typ`. -/
structure AccessEntry where
  Typ : String
  Name : String
  Actions : List action
  deriving DecidableEq, Repr

/-- The registered claims of `jwt.StandardClaims`. -/
structure jwt.StandardClaims where
  Audience : String
  ExpiresAt : Int
  Id : String
  IssuedAt : Int
  Issuer : String
  NotBefore : Int
  Subject : String
  deriving DecidableEq, Repr

/-- Go `CustomClaims`: the embedded `*jwt.StandardClaims` pointer (`none` is `nil`) and the
access entries. -/
structure CustomClaims where
  StandardClaims : Option jwt.StandardClaims
  Access : List AccessEntry
  deriving DecidableEq, Repr

/-- The fields of `jwt.Token` that `authorizeRequest` reads. -/
structure Token where
  Valid : Bool
  Claims : CustomClaims
  deriving DecidableEq, Repr

/-- A non-nil Go `error` as seen by the type switch of `authorizeRequest`: a
`*jwt.ValidationError` with its `Errors` bit field, or any other error. -/
inductive AuthError where
  | validation (Errors : Nat) (msg : String)
  | other (msg : String)
  deriving DecidableEq, Repr

/-- The fields of `http.Request` (and of the gin context wrapping it) that the code reads.
`Header` maps a canonical header name to its values, `FormFile` gives for a form field the
result of reading its content (`none`: field not present), `GetRawData` the result of reading
the body. -/
structure Request where
  Method : String
  Header : String → List String
  FormFile : String → Option (Except String (List Nat))
  GetRawData : Except String (List Nat)

/-- Go `http.Header.Get`: the first value stored under the key, or the empty string. The key
"Authorization" is already in canonical form. -/
def Request.HeaderGet (request : Request) (key : String) : String :=
  (request.Header key).headD ""

/-- The fields of `Router` that `authorizeRequest` reads. -/
structure Router where
  BasicAuthHeader : String
  AnonymousGet : Bool
  deriving DecidableEq, Repr

/-- Result pair of `jwt.ParseWithClaims`: a token pointer (`none` is `nil`) and an error. -/
abbrev ParseResult := Option Token × Option AuthError

/-- The steps of jwt-go's `ParseWithClaims` that do not depend on the claims type of the
caller. `decode` splits the segments, decodes header and payload into the `&CustomClaims{}`
handed in and looks up method and key: it gives the early return of the parser, or the claims
as decoded, whose embedded pointer is still nil when the payload carries no registered claim.
`standardValid` is `jwt.StandardClaims.Valid()`, the time checks. `finish` verifies the
signature and builds the result from the claims and the error of the claims validation. -/
structure JwtParser where
  decode : String → Except ParseResult CustomClaims
  standardValid : jwt.StandardClaims → Option AuthError
  finish : CustomClaims → Option AuthError → String → ParseResult

/-- The method `Valid` that `*CustomClaims` gets from its embedded `*jwt.StandardClaims`.
Called through a nil embedded pointer it panics with a nil pointer dereference (`none`);
otherwise it returns the error of the time checks. -/
def CustomClaims.Valid (standardValid : jwt.StandardClaims → Option AuthError)
    (claims : CustomClaims) : Option (Option AuthError) :=
  match claims.StandardClaims with
  | none => none
  | some registered => some (standardValid registered)

/-- The call `jwt.ParseWithClaims(raw, &CustomClaims{}, keyFunc)` of `extractRequestToken`:
after decoding, the parser calls `token.Claims.Valid()`, then verifies the signature and
returns. `none` is a panic. -/
def ParseWithClaims (lib : JwtParser) (raw : String) : Option ParseResult :=
  match lib.decode raw with
  | Except.error early => some early
  | Except.ok claims =>
      match claims.Valid lib.standardValid with
      | none => none
      | some claimsErr => some (lib.finish claims claimsErr raw)

/-- Go `(*CustomClaims).repoActionAllowed`. -/
def repoActionAllowed (claims : CustomClaims) (repo : String) (act : action) : Bool :=
  claims.Access.any fun entry =>
    decide (entry.Typ = "repository") && (decide (entry.Name = repo) &&
      entry.Actions.any fun a => decide (a = act))

/-- Go `isRepoAction`. -/
def isRepoAction (act : action) : Bool :=
  decide (act = RepoPullAction) || decide (act = RepoPushAction)

/-- The part of `extractRequestToken` that precedes the call of the JWT parser: the text that
is handed to the parser, or the error returned without calling it. -/
def extractRawToken (request : Request) : Except String String :=
  let h := request.HeaderGet "Authorization"
  if h = "" then Except.error "missing authorization header"
  else
    let tmp := stringsSplit h "Bearer "
    if tmp.length ≠ 2 then Except.error "authorization header malformed"
    else Except.ok (tmp.getD 1 "")

/-- Go `extractRequestToken`: the result pair, or `none` when the parser panics. -/
def extractRequestToken (lib : JwtParser) (request : Request) : Option ParseResult :=
  match extractRawToken request with
  | Except.error e => some (none, some (AuthError.other e))
  | Except.ok raw => ParseWithClaims lib raw

/-- Go `(*Router).authorizeRequest`: the returned pair, or `none` when the call panics. The
diagnostic `fmt.Println` calls are left out; every branch of the two switches is kept. -/
def authorizeRequest (lib : JwtParser) (router : Router)
    (repo : String) (act : action) (request : Request) :
    Option (Bool × List (String × String)) :=
  if act = RepoPushAction then
    match extractRequestToken lib request with
    | none => none
    | some result =>
        let authorized : Bool :=
          match result with
          | (none, _) => false
          | (some token, none) =>
              if !token.Valid then false
              else if repoActionAllowed token.Claims repo act then true else false
          | (some _, some (AuthError.validation _ _)) => false
          | (some _, some (AuthError.other _)) => false
        if !authorized then
          some (authorized, [("WWW-Authenticate",
            "Bearer realm=\"https://chartmuseum.auth0.com/oauth/token\",scope=\"repository:"
              ++ repo ++ ":pull,push\"")])
        else some (authorized, [])
  else if router.BasicAuthHeader ≠ "" then
    if router.AnonymousGet && decide (request.Method = "GET") then some (true, [])
    else if request.HeaderGet "Authorization" = router.BasicAuthHeader then some (true, [])
    else some (false, [("WWW-Authenticate", "Basic realm=\"ChartMuseum\"")])
  else some (true, [])

/-! ## Storage backend interface and upload handlers (`handlers.go`) -/

/-- The fields of `storage.Object` that the handlers read. -/
structure Object where
  Path : String
  Content : List Nat
  deriving DecidableEq, Repr

/-- The `storage.Backend` interface over an explicit store state. Every method returns its Go
result pair; `none` in the error position is `nil`. `ListObjects` and `GetObject` only read. -/
structure Backend (σ : Type) where
  ListObjects : σ → List Object × Option String
  GetObject : σ → String → Object × Option String
  PutObject : σ → String → List Nat → σ × Option String
  DeleteObject : σ → String → σ × Option String

/-- The fields of `Server` that the upload handlers read; the storage backend is passed
separately together with its state. -/
structure Server where
  AllowOverwrite : Bool
  ChartPostFormFieldName : String
  ProvPostFormFieldName : String
  deriving DecidableEq, Repr

/-- Go `filenameFromContentFn`: a filename, or an error. -/
abbrev filenameFromContentFn := List Nat → Except String String

/-- Go `packageOrProvenanceFile`. -/
structure packageOrProvenanceFile where
  filename : String
  content : List Nat
  field : String
  deriving DecidableEq, Repr

/-- The JSON bodies the upload handlers send: `objectSavedResponse`,
`alreadyExistsErrorResponse` and `errorResponse(err)`. -/
inductive Body where
  | objectSaved
  | alreadyExists
  | error (msg : String)
  deriving DecidableEq, Repr

/-- One `c.JSON(status, body)` call. -/
structure Response where
  status : Nat
  body : Body
  deriving DecidableEq, Repr

/-- A mutating call on the storage backend. -/
inductive StoreCall where
  | put (filename : String) (content : List Nat)
  | delete (filename : String)
  deriving DecidableEq, Repr

/-- What a handler run leaves behind: the store state, the `c.JSON` calls in order and the
mutating backend calls in order. -/
structure HandlerResult (σ : Type) where
  store : σ
  responses : List Response
  calls : List StoreCall
  deriving DecidableEq, Repr

/-- Go `(*Server).extractAndValidateFormFile`: candidate pointer, status and error. -/
def extractAndValidateFormFile {σ : Type} (server : Server) (B : Backend σ) (s : σ)
    (req : Request) (field : String) (fnFromContent : filenameFromContentFn) :
    Option packageOrProvenanceFile × Nat × Option String :=
  match req.FormFile field with
  | none => (none, 200, none)
  | some (Except.error err) => (none, 500, some err)
  | some (Except.ok content) =>
      match fnFromContent content with
      | Except.error err => (none, 400, some err)
      | Except.ok filename =>
          if !server.AllowOverwrite && (B.GetObject s filename).2.isNone then
            (none, 409, some (filename ++ " already exists"))
          else (some ⟨filename, content, field⟩, 200, none)

/-- First loop of `postPackageAndProvenanceRequestHandler`: validates the fields in order and
collects the candidates; the error case is the response sent before the early return. -/
def validateLoop {σ : Type} (server : Server) (B : Backend σ) (s : σ) (req : Request) :
    List (String × filenameFromContentFn) → List packageOrProvenanceFile →
      Except Response (List packageOrProvenanceFile)
  | [], ppFiles => Except.ok ppFiles
  | ff :: rest, ppFiles =>
      match extractAndValidateFormFile server B s req ff.1 ff.2 with
      | (_, status, some err) => Except.error ⟨status, Body.error err⟩
      | (some ppf, _, none) => validateLoop server B s req rest (ppFiles ++ [ppf])
      | (none, _, none) => validateLoop server B s req rest ppFiles

/-- Inner clean-up loop of the commit step: `DeleteObject` on every stored file, errors
ignored. -/
def cleanupLoop {σ : Type} (B : Backend σ) :
    List packageOrProvenanceFile → HandlerResult σ → HandlerResult σ
  | [], acc => acc
  | ppf :: rest, acc =>
      cleanupLoop B rest
        { acc with
          store := (B.DeleteObject acc.store ppf.filename).1
          calls := acc.calls ++ [StoreCall.delete ppf.filename] }

/-- Second loop of `postPackageAndProvenanceRequestHandler` (the commit step). After a failed
`PutObject` the stored files are cleaned up, the 500 response is sent and the loop goes on
with the next candidate. -/
def commitLoop {σ : Type} (B : Backend σ) :
    List packageOrProvenanceFile → List packageOrProvenanceFile → HandlerResult σ →
      HandlerResult σ
  | [], _, acc => acc
  | ppf :: rest, storedFiles, acc =>
      let put := B.PutObject acc.store ppf.filename ppf.content
      let acc1 : HandlerResult σ :=
        { acc with
          store := put.1
          calls := acc.calls ++ [StoreCall.put ppf.filename ppf.content] }
      match put.2 with
      | none => commitLoop B rest (storedFiles ++ [ppf]) acc1
      | some err =>
          let acc2 := cleanupLoop B storedFiles acc1
          commitLoop B rest storedFiles
            { acc2 with responses := acc2.responses ++ [⟨500, Body.error err⟩] }

/-- Go `(*Server).postPackageAndProvenanceRequestHandler`; the two filename derivation
functions of package `repo` are parameters. -/
def postPackageAndProvenanceRequestHandler {σ : Type} (server : Server)
    (ChartPackageFilenameFromContent ProvenanceFilenameFromContent : filenameFromContentFn)
    (B : Backend σ) (s : σ) (req : Request) : HandlerResult σ :=
  match validateLoop server B s req
      [(server.ChartPostFormFieldName, ChartPackageFilenameFromContent),
       (server.ProvPostFormFieldName, ProvenanceFilenameFromContent)] [] with
  | Except.error resp => ⟨s, [resp], []⟩
  | Except.ok ppFiles =>
      if ppFiles.length = 0 then
        ⟨s, [⟨400, Body.error ("no package or provenance file found in form fields "
          ++ server.ChartPostFormFieldName ++ " and " ++ server.ProvPostFormFieldName)⟩], []⟩
      else
        let r := commitLoop B ppFiles [] ⟨s, [], []⟩
        { r with responses := r.responses ++ [⟨201, Body.objectSaved⟩] }

/-- Common body of `postPackageRequestHandler` and `postProvenanceFileRequestHandler`, which
differ only in the filename derivation function they call. -/
def postSinglePayload {σ : Type} (server : Server) (fnFromContent : filenameFromContentFn)
    (B : Backend σ) (s : σ) (req : Request) : HandlerResult σ :=
  match req.GetRawData with
  | Except.error err => ⟨s, [⟨500, Body.error err⟩], []⟩
  | Except.ok content =>
      match fnFromContent content with
      | Except.error err => ⟨s, [⟨500, Body.error err⟩], []⟩
      | Except.ok filename =>
          if !server.AllowOverwrite && (B.GetObject s filename).2.isNone then
            ⟨s, [⟨409, Body.alreadyExists⟩], []⟩
          else
            let put := B.PutObject s filename content
            match put.2 with
            | some err =>
                ⟨put.1, [⟨500, Body.error err⟩], [StoreCall.put filename content]⟩
            | none =>
                ⟨put.1, [⟨201, Body.objectSaved⟩], [StoreCall.put filename content]⟩

/-- Go `(*Server).postPackageRequestHandler`. -/
def postPackageRequestHandler {σ : Type} (server : Server)
    (ChartPackageFilenameFromContent : filenameFromContentFn)
    (B : Backend σ) (s : σ) (req : Request) : HandlerResult σ :=
  postSinglePayload server ChartPackageFilenameFromContent B s req

/-- Go `(*Server).postProvenanceFileRequestHandler`. -/
def postProvenanceFileRequestHandler {σ : Type} (server : Server)
    (ProvenanceFilenameFromContent : filenameFromContentFn)
    (B : Backend σ) (s : σ) (req : Request) : HandlerResult σ :=
  postSinglePayload server ProvenanceFilenameFromContent B s req

/-! ## Per-tenant index derivation (`handlers.go`) -/

/-- The operations of `repo.Index` that `getOrgRepoIndexFileRequestHandler` calls, over an
index type `ι` and a chart-version type `κ`; `AddEntry` receives a chart-version pointer
(`none` is `nil`). -/
structure IndexOps (ι κ : Type) where
  NewIndex : ι
  AddEntry : ι → Option κ → ι
  Regenerate : ι → ι
  Raw : ι → List Nat

/-- Loop of `getOrgRepoIndexFileRequestHandler`: for every listed object the content is
fetched, handed to `ChartVersionFromStorageObject` and the resulting pointer is passed to
`AddEntry`; both errors are discarded. -/
def indexLoop {σ ι κ : Type} (B : Backend σ) (s : σ) (I : IndexOps ι κ)
    (ChartVersionFromStorageObject : Object → Option κ × Option String) :
    List Object → ι → ι
  | [], tempIndex => tempIndex
  | obj :: rest, tempIndex =>
      let obj1 := (B.GetObject s obj.Path).1
      let cv := (ChartVersionFromStorageObject obj1).1
      indexLoop B s I ChartVersionFromStorageObject rest (I.AddEntry tempIndex cv)

/-- Go `(*Server).getOrgRepoIndexFileRequestHandler` on the tenant backend: the regenerated
index, whose `Raw` is sent with status 200. -/
def getOrgRepoIndexFileRequestHandler {σ ι κ : Type} (B : Backend σ) (s : σ)
    (I : IndexOps ι κ)
    (ChartVersionFromStorageObject : Object → Option κ × Option String) : ι :=
  I.Regenerate
    (indexLoop B s I ChartVersionFromStorageObject (B.ListObjects s).1 I.NewIndex)

/-- Modelled from the spec: the storage backends live in package `storage`, outside the files
at hand. An in-memory Object Store after the contract of the spec (section 4.1): a key/value
list in which `PutObject` overwrites, `GetObject` and `DeleteObject` fail on an absent key,
and `PutObject` fails without writing on the keys listed in `faulty` (a simulated backend
fault). -/
def memBackend (faulty : List String) : Backend (List (String × List Nat)) where
  ListObjects t := (t.map fun p => ⟨p.1, []⟩, none)
  GetObject t k :=
    match t.lookup k with
    | some c => (⟨k, c⟩, none)
    | none => (⟨"", []⟩, some "object not found")
  PutObject t k c :=
    if k ∈ faulty then (t, some "write failed")
    else ((k, c) :: t.filter (fun p => decide (p.1 ≠ k)), none)
  DeleteObject t k :=
    match t.lookup k with
    | some _ => (t.filter (fun p => decide (p.1 ≠ k)), none)
    | none => (t, some "object not found")

/-! ## Per-repository configuration (`config/repo.go`) -/

/-- The two accessors of `Config` that `GetRepoConfig` calls; the type is declared outside the
files at hand. -/
structure Config where
  GetBool : String → Bool
  GetString : String → String

/-- Go `RepoConfig`. -/
structure RepoConfig where
  AnonymousGet : Bool
  deriving DecidableEq, Repr

/-- Go `(*Config).GetRepoConfig`; `yamlUnmarshal raw cfg` stands for
`yaml.Unmarshal([]byte(raw), cfg)` and returns the struct after decoding together with the
error. -/
def GetRepoConfig (conf : Config)
    (yamlUnmarshal : String → RepoConfig → RepoConfig × Option String) (repo : String) :
    RepoConfig × Option String :=
  let repoConfig : RepoConfig := { AnonymousGet := conf.GetBool "anonymousget" }
  let key := "repos." ++ stringsReplaceAll repo "/" "."
  let raw := conf.GetString key
  if raw = "" then (repoConfig, none)
  else yamlUnmarshal raw repoConfig

/-! ## Sample inputs -/

/-- A package filename derivation for the samples: empty content is no package, every other
content is the package `mychart-0.1.0`. -/
def sampleChartFn : filenameFromContentFn := fun content =>
  if content = [] then Except.error "invalid package" else Except.ok "mychart-0.1.0.tgz"

/-- A provenance filename derivation for the samples: empty content is no provenance file. -/
def sampleProvFn : filenameFromContentFn := fun content =>
  if content = [] then Except.error "invalid provenance file"
  else Except.ok "mychart-0.1.0.tgz.prov"

/-- A server with the default form field names. -/
def sampleServer (allowOverwrite : Bool) : Server :=
  { AllowOverwrite := allowOverwrite
    ChartPostFormFieldName := "chart"
    ProvPostFormFieldName := "prov" }

/-- A multipart upload with the given `chart` and `prov` form fields. -/
def formRequest (chart prov : Option (Except String (List Nat))) : Request :=
  { Method := "POST"
    Header := fun _ => []
    FormFile := fun f => if f = "chart" then chart else if f = "prov" then prov else none
    GetRawData := Except.error "body already consumed" }

/-- A raw-body upload. -/
def rawRequest (body : List Nat) : Request :=
  { Method := "POST"
    Header := fun _ => []
    FormFile := fun _ => none
    GetRawData := Except.ok body }

/-- A request with the given method and `Authorization` header values. -/
def authRequest (method : String) (authorization : List String) : Request :=
  { Method := method
    Header := fun k => if k = "Authorization" then authorization else []
    FormFile := fun _ => none
    GetRawData := Except.ok [] }

/-- Registered claims of a token that does not expire before the year 2100. -/
def sampleRegistered : jwt.StandardClaims :=
  { Audience := "", ExpiresAt := 4102444800, Id := "", IssuedAt := 0, Issuer := "",
    NotBefore := 0, Subject := "" }

/-- Parser steps for the samples. The text `tok` decodes to claims with registered claims
and push access on `my/repo`; the text `bare` decodes to the same access entry without any
registered claim, so that the embedded pointer stays nil; every other text is malformed. The
time checks and the signature verification accept. -/
def sampleJwt : JwtParser :=
  { decode := fun raw =>
      if raw = "tok" then
        Except.ok ⟨some sampleRegistered, [⟨"repository", "my/repo", ["push"]⟩]⟩
      else if raw = "bare" then
        Except.ok ⟨none, [⟨"repository", "my/repo", ["push"]⟩]⟩
      else
        Except.error (none, some (AuthError.validation 1
          "token contains an invalid number of segments"))
    standardValid := fun _ => none
    finish := fun claims claimsErr _ =>
      match claimsErr with
      | none => (some ⟨true, claims⟩, none)
      | some e => (some ⟨false, claims⟩, some e) }

/-- An index that records the arguments of its `AddEntry` calls in order. -/
def recordingIndex : IndexOps (List (Option String)) String :=
  { NewIndex := []
    AddEntry := fun idx cv => idx ++ [cv]
    Regenerate := fun idx => idx
    Raw := fun _ => [] }

/-- A chart-version reader for the samples: content starting with byte 31 is a package named
after its path, anything else fails to load. -/
def sampleChartVersion : Object → Option String × Option String := fun obj =>
  match obj.Content with
  | 31 :: _ => (some obj.Path, none)
  | _ => (none, some "chart file is not a gzipped archive")

/-- A leaf value of the settings read from the configuration file. -/
inductive SettingValue where
  | bool (b : Bool)
  | str (s : String)
  deriving DecidableEq, Repr

/-- The accessors that `Config` gets from the `*viper.Viper` it embeds, over the settings of a
configuration file given as its leaf values under their full lower-case dotted keys.
`GetString key` is `cast.ToString(Get(key))`: the text of a string leaf, `true` or `false` for
a boolean leaf, and the empty string when `key` names no leaf, be it unset or the key of a
nested settings map. `GetBool key` is `cast.ToBool(Get(key))`: the value of a boolean leaf,
the parsed value of a string leaf, and false otherwise. -/
def viperConfig (settings : List (String × SettingValue)) : Config :=
  { GetString := fun key =>
      match settings.lookup key with
      | some (SettingValue.str v) => v
      | some (SettingValue.bool b) => if b then "true" else "false"
      | none => ""
    GetBool := fun key =>
      match settings.lookup key with
      | some (SettingValue.bool b) => b
      | some (SettingValue.str v) => decide (v ∈ ["1", "t", "T", "TRUE", "true", "True"])
      | none => false }

/-- The settings of the configuration file that `repo_test.go` writes: global `anonymousget`
true and the per-repository `anonymousget` of `org1/repo2` false. -/
def repoTestSettings : List (String × SettingValue) :=
  [("anonymousget", SettingValue.bool true),
   ("basicauth.user", SettingValue.str "mydefaultuser"),
   ("basicauth.pass", SettingValue.str "mydefaultpass"),
   ("repos.org1.repo2.anonymousget", SettingValue.bool false),
   ("repos.org1.repo2.basicauth.user", SettingValue.str "mycustomuser"),
   ("repos.org1.repo2.basicauth.pass", SettingValue.str "mycustompass")]

/-! ## Lemmas on the string helpers -/

theorem splitGo_ne_nil (sep : List Char) (cs : List Char) (skip : Nat) (cur : List Char) :
    splitGo sep cs skip cur ≠ [] := by
  induction cs generalizing skip cur with
  | nil => simp [splitGo]
  | cons c cs ih =>
      cases skip with
      | succ n => simpa [splitGo] using ih n cur
      | zero =>
          unfold splitGo
          split
          · simp
          · exact ih 0 (c :: cur)

theorem intercalate_cons_of_ne_nil (sep x : List Char) (rest : List (List Char))
    (h : rest ≠ []) :
    List.intercalate sep (x :: rest) = x ++ sep ++ List.intercalate sep rest := by
  cases rest with
  | nil => exact absurd rfl h
  | cons y ys => simp [List.intercalate, List.intersperse]

/-- Splitting at a one-character separator and joining with another character maps the first
character to the second and leaves every other character in place. -/
theorem intercalate_splitGo_single (a b : Char) (cs cur : List Char) :
    List.intercalate [b] (splitGo [a] cs 0 cur) =
      cur.reverse ++ cs.map (fun c => if c = a then b else c) := by
  induction cs generalizing cur with
  | nil => simp [splitGo, List.intercalate]
  | cons c cs ih =>
      unfold splitGo
      by_cases hca : c = a
      · subst hca
        have hp : [c].isPrefixOf (c :: cs) = true := by simp [List.isPrefixOf]
        rw [if_pos hp, intercalate_cons_of_ne_nil _ _ _ (splitGo_ne_nil _ _ _ _)]
        simp [ih]
      · have hp : ¬ ([a].isPrefixOf (c :: cs) = true) := by
          simp [List.isPrefixOf]
          exact fun h => hca h.symm
        rw [if_neg hp, ih]
        simp [hca]

/-- Replacing "/" by "." is the character map that sends every slash to a dot. -/
theorem stringsReplaceAll_slash (repo : String) :
    stringsReplaceAll repo "/" "." =
      String.mk (repo.data.map (fun c => if c = '/' then '.' else c)) := by
  have h := intercalate_splitGo_single '/' '.' repo.data []
  simp only [List.reverse_nil, List.nil_append] at h
  have hd : ("/" : String).data = ['/'] := rfl
  have hn : ("." : String).data = ['.'] := rfl
  simp [stringsReplaceAll, hd, hn, h]

/-! ## Authorization decisions -/

theorem repoActionAllowed_iff (claims : CustomClaims) (repo : String) (act : action) :
    repoActionAllowed claims repo act = true ↔
      ∃ entry ∈ claims.Access, entry.Typ = "repository" ∧ entry.Name = repo ∧
        act ∈ entry.Actions := by
  simp [repoActionAllowed, List.any_eq_true]

/-- The push decision on the requests for which `extractRequestToken` returns: `(true, no
headers)` when it yields a token without error, the token is valid and its claims hold a
"repository" entry for the repository whose actions include push; in every other returning
case `false` with the single Bearer challenge header. -/
theorem authorizeRequest_push_decision_of_return (lib : JwtParser)
    (router : Router) (repo : String) (request : Request) (result : ParseResult)
    (hret : extractRequestToken lib request = some result) :
    ((∃ token, result = (some token, none) ∧ token.Valid = true ∧
        ∃ entry ∈ token.Claims.Access, entry.Typ = "repository" ∧ entry.Name = repo ∧
          RepoPushAction ∈ entry.Actions) →
      authorizeRequest lib router repo RepoPushAction request = some (true, [])) ∧
    ((¬ ∃ token, result = (some token, none) ∧ token.Valid = true ∧
        ∃ entry ∈ token.Claims.Access, entry.Typ = "repository" ∧ entry.Name = repo ∧
          RepoPushAction ∈ entry.Actions) →
      authorizeRequest lib router repo RepoPushAction request =
        some (false, [("WWW-Authenticate",
          "Bearer realm=\"https://chartmuseum.auth0.com/oauth/token\",scope=\"repository:"
            ++ repo ++ ":pull,push\"")])) := by
  constructor
  · rintro ⟨token, htok, hvalid, hentry⟩
    have hallowed := (repoActionAllowed_iff token.Claims repo RepoPushAction).2 hentry
    simp [authorizeRequest, hret, htok, hvalid, hallowed]
  · intro hno
    rcases h : result with ⟨_ | token, _ | err⟩
    · simp [authorizeRequest, hret, h]
    · simp [authorizeRequest, hret, h]
    · have hdeny : (token.Valid = true ∧
          repoActionAllowed token.Claims repo RepoPushAction = true) → False := by
        rintro ⟨hv, ha⟩
        exact hno ⟨token, h, hv, (repoActionAllowed_iff _ _ _).1 ha⟩
      cases hv : token.Valid <;>
        cases ha : repoActionAllowed token.Claims repo RepoPushAction <;>
        simp_all [authorizeRequest]
    · cases err <;> simp [authorizeRequest, hret, h]

/-- A push request whose Bearer text decodes to claims without registered claims makes
`authorizeRequest` panic: the claims validation is called through the nil embedded pointer. -/
theorem authorizeRequest_push_panics_of_nil_registered (lib : JwtParser)
    (router : Router) (repo : String) (request : Request) (raw : String)
    (claims : CustomClaims)
    (hraw : extractRawToken request = Except.ok raw)
    (hdec : lib.decode raw = Except.ok claims)
    (hnil : claims.StandardClaims = none) :
    authorizeRequest lib router repo RepoPushAction request = none := by
  simp [authorizeRequest, extractRequestToken, ParseWithClaims, CustomClaims.Valid, hraw,
    hdec, hnil]

/-- C1, evaluated: a push request with header `Bearer bare`, whose token grants push on
`my/repo` but carries no registered claim, is a case in which `authorizeRequest` returns
neither `(true, no headers)` nor `false` with the Bearer challenge: the embedded
`*jwt.StandardClaims` of `&CustomClaims` is still nil after decoding, the promoted `Valid`
panics, and so does `authorizeRequest`. -/
theorem authorizeRequest_push_panics_without_registered_claims :
    extractRawToken (authRequest "POST" ["Bearer bare"]) = Except.ok "bare" ∧
    sampleJwt.decode "bare" =
      Except.ok ⟨none, [⟨"repository", "my/repo", ["push"]⟩]⟩ ∧
    CustomClaims.Valid sampleJwt.standardValid
      ⟨none, [⟨"repository", "my/repo", ["push"]⟩]⟩ = none ∧
    extractRequestToken sampleJwt (authRequest "POST" ["Bearer bare"]) = none ∧
    authorizeRequest sampleJwt ⟨"", false⟩ "my/repo" RepoPushAction
        (authRequest "POST" ["Bearer bare"]) = none := by
  refine ⟨by rfl, by rfl, by decide, by decide, by decide⟩

/-- C2: for every action other than push `authorizeRequest` returns, and the request is
authorized exactly when no static credential is configured, or anonymous reads are enabled
and the method is GET, or the Authorization header equals the configured credential; the
headers are the single Basic challenge when unauthorized and empty otherwise. -/
theorem authorizeRequest_non_push_decision (lib : JwtParser)
    (router : Router) (repo : String) (act : action) (request : Request)
    (hact : act ≠ RepoPushAction) :
    ∃ r, authorizeRequest lib router repo act request = some r ∧
      (r.1 = true ↔
        (router.BasicAuthHeader = "" ∨
          (router.AnonymousGet = true ∧ request.Method = "GET") ∨
          request.HeaderGet "Authorization" = router.BasicAuthHeader)) ∧
      r.2 = (if r.1 = true then []
        else [("WWW-Authenticate", "Basic realm=\"ChartMuseum\"")]) := by
  unfold authorizeRequest
  rw [if_neg hact]
  by_cases hb : router.BasicAuthHeader = ""
  · exact ⟨(true, []), by simp [hb], by simp [hb], by simp⟩
  · by_cases hg : (router.AnonymousGet && decide (request.Method = "GET")) = true
    · have hg2 : router.AnonymousGet = true ∧ request.Method = "GET" := by simpa using hg
      exact ⟨(true, []), by simp [hb, hg2], by simp [hg2], by simp⟩
    · have hg2 : ¬ (router.AnonymousGet = true ∧ request.Method = "GET") := by
        simpa using hg
      by_cases he : request.HeaderGet "Authorization" = router.BasicAuthHeader
      · exact ⟨(true, []), by simp [hb, hg, he], by simp [he], by simp⟩
      · exact ⟨(false, [("WWW-Authenticate", "Basic realm=\"ChartMuseum\"")]),
          by simp [hb, hg, he], by simp [hb, he, hg2], by simp⟩

/-- Witness of C2: a pull request with a wrong Basic credential on a protected server without
anonymous reads is refused with the Basic challenge. -/
theorem authorizeRequest_non_push_decision_witness :
    RepoPullAction ≠ RepoPushAction ∧
    (∃ r, authorizeRequest sampleJwt ⟨"Basic dXNlcjpwYXNz", false⟩ "my/repo" RepoPullAction
        (authRequest "GET" ["Basic d3Jvbmc6d3Jvbmc="]) = some r ∧
      (r.1 = true ↔
        ((⟨"Basic dXNlcjpwYXNz", false⟩ : Router).BasicAuthHeader = "" ∨
          ((⟨"Basic dXNlcjpwYXNz", false⟩ : Router).AnonymousGet = true ∧
            (authRequest "GET" ["Basic d3Jvbmc6d3Jvbmc="]).Method = "GET") ∨
          (authRequest "GET" ["Basic d3Jvbmc6d3Jvbmc="]).HeaderGet "Authorization" =
            (⟨"Basic dXNlcjpwYXNz", false⟩ : Router).BasicAuthHeader)) ∧
      r.2 = (if r.1 = true then []
        else [("WWW-Authenticate", "Basic realm=\"ChartMuseum\"")])) ∧
    authorizeRequest sampleJwt ⟨"Basic dXNlcjpwYXNz", false⟩ "my/repo" RepoPullAction
        (authRequest "GET" ["Basic d3Jvbmc6d3Jvbmc="]) =
      some (false, [("WWW-Authenticate", "Basic realm=\"ChartMuseum\"")]) :=
  ⟨by decide,
   authorizeRequest_non_push_decision sampleJwt ⟨"Basic dXNlcjpwYXNz", false⟩ "my/repo"
      RepoPullAction (authRequest "GET" ["Basic d3Jvbmc6d3Jvbmc="]) (by decide),
   by decide⟩

/-- C9, evaluated: a push request whose Authorization header carries other text before
"Bearer " is not rejected as malformed; the text after "Bearer " is handed to the JWT parser,
and when that text verifies as a token granting push the request is authorized. -/
theorem extractRequestToken_accepts_text_before_Bearer :
    extractRawToken (authRequest "POST" ["Basic dXNlcjpwYXNzBearer tok"]) = Except.ok "tok" ∧
    extractRequestToken sampleJwt (authRequest "POST" ["Basic dXNlcjpwYXNzBearer tok"]) =
      ParseWithClaims sampleJwt "tok" ∧
    authorizeRequest sampleJwt ⟨"", false⟩ "my/repo" RepoPushAction
        (authRequest "POST" ["Basic dXNlcjpwYXNzBearer tok"]) = some (true, []) := by
  refine ⟨by rfl, by rfl, by decide⟩

/-! ## Multi-field upload: validation before any write -/

/-- The three ways in which `extractAndValidateFormFile` reports an error. -/
theorem extractAndValidateFormFile_error_cases {σ : Type} (server : Server) (B : Backend σ)
    (s : σ) (req : Request) (field : String) (fn : filenameFromContentFn)
    (status : Nat) (err : String)
    (h : (extractAndValidateFormFile server B s req field fn).2 = (status, some err)) :
    (status = 500 ∧ req.FormFile field = some (Except.error err)) ∨
    (status = 400 ∧ ∃ content, req.FormFile field = some (Except.ok content) ∧
        fn content = Except.error err) ∨
    (status = 409 ∧ ∃ content filename, req.FormFile field = some (Except.ok content) ∧
        fn content = Except.ok filename ∧ server.AllowOverwrite = false ∧
        (B.GetObject s filename).2 = none ∧ err = filename ++ " already exists") := by
  unfold extractAndValidateFormFile at h
  rcases hf : req.FormFile field with _ | (e | content)
  · simp [hf] at h
  · simp [hf] at h
    obtain ⟨rfl, rfl⟩ := h
    exact Or.inl ⟨rfl, rfl⟩
  · rcases hk : fn content with e | filename
    · simp [hf, hk] at h
      obtain ⟨rfl, rfl⟩ := h
      exact Or.inr (Or.inl ⟨rfl, content, rfl, hk⟩)
    · by_cases hc : (!server.AllowOverwrite && (B.GetObject s filename).2.isNone) = true
      · simp [hf, hk, hc] at h
        obtain ⟨rfl, rfl⟩ := h
        have hc2 : server.AllowOverwrite = false ∧ (B.GetObject s filename).2 = none := by
          simpa using hc
        exact Or.inr (Or.inr ⟨rfl, content, filename, rfl, hk, hc2.1, hc2.2, rfl⟩)
      · simp [hf, hk, hc] at h

/-- Each of the three failure conditions of a field makes `extractAndValidateFormFile` report
an error: unreadable content, underivable filename, and an existing object under the derived
filename while overwrite is disallowed. -/
theorem extractAndValidateFormFile_error_of_condition {σ : Type} (server : Server)
    (B : Backend σ) (s : σ) (req : Request) (field : String) (fn : filenameFromContentFn)
    (h : (∃ err, req.FormFile field = some (Except.error err)) ∨
      (∃ content err, req.FormFile field = some (Except.ok content) ∧
        fn content = Except.error err) ∨
      (∃ content filename, req.FormFile field = some (Except.ok content) ∧
        fn content = Except.ok filename ∧ server.AllowOverwrite = false ∧
        (B.GetObject s filename).2 = none)) :
    (extractAndValidateFormFile server B s req field fn).2.2 ≠ none := by
  rcases h with ⟨err, hf⟩ | ⟨content, err, hf, hk⟩ | ⟨content, filename, hf, hk, ho, hg⟩
  · simp [extractAndValidateFormFile, hf]
  · simp [extractAndValidateFormFile, hf, hk]
  · simp [extractAndValidateFormFile, hf, hk, ho, hg]

/-- When `extractAndValidateFormFile` reports an error for one of the two fields, the handler
sends the error of the first such field as its only response and writes nothing. -/
theorem multiField_first_error_is_sent {σ : Type} (server : Server)
    (chartFn provFn : filenameFromContentFn) (B : Backend σ) (s : σ) (req : Request)
    (hfail :
      (extractAndValidateFormFile server B s req server.ChartPostFormFieldName chartFn).2.2
          ≠ none ∨
      (extractAndValidateFormFile server B s req server.ProvPostFormFieldName provFn).2.2
          ≠ none) :
    (postPackageAndProvenanceRequestHandler server chartFn provFn B s req).store = s ∧
    (postPackageAndProvenanceRequestHandler server chartFn provFn B s req).calls = [] ∧
    ∃ field fn status err,
      ((field, fn) = (server.ChartPostFormFieldName, chartFn) ∨
        ((field, fn) = (server.ProvPostFormFieldName, provFn) ∧
          (extractAndValidateFormFile server B s req server.ChartPostFormFieldName
            chartFn).2.2 = none)) ∧
      (extractAndValidateFormFile server B s req field fn).2 = (status, some err) ∧
      (postPackageAndProvenanceRequestHandler server chartFn provFn B s req).responses =
        [⟨status, Body.error err⟩] ∧
      ((status = 500 ∧ req.FormFile field = some (Except.error err)) ∨
       (status = 400 ∧ ∃ content, req.FormFile field = some (Except.ok content) ∧
          fn content = Except.error err) ∨
       (status = 409 ∧ ∃ content filename, req.FormFile field = some (Except.ok content) ∧
          fn content = Except.ok filename ∧ server.AllowOverwrite = false ∧
          (B.GetObject s filename).2 = none ∧ err = filename ++ " already exists")) := by
  rcases h1 : extractAndValidateFormFile server B s req server.ChartPostFormFieldName chartFn
    with ⟨p1, st1, e1⟩
  cases e1 with
  | some err1 =>
      refine ⟨?_, ?_, server.ChartPostFormFieldName, chartFn, st1, err1, Or.inl rfl,
        ?_, ?_, ?_⟩
      · simp [postPackageAndProvenanceRequestHandler, validateLoop, h1]
      · simp [postPackageAndProvenanceRequestHandler, validateLoop, h1]
      · simp [h1]
      · simp [postPackageAndProvenanceRequestHandler, validateLoop, h1]
      · exact extractAndValidateFormFile_error_cases server B s req _ _ st1 err1
          (by simp [h1])
  | none =>
      rcases h2 : extractAndValidateFormFile server B s req server.ProvPostFormFieldName
        provFn with ⟨p2, st2, e2⟩
      cases e2 with
      | none => simp [h1, h2] at hfail
      | some err2 =>
          refine ⟨?_, ?_, server.ProvPostFormFieldName, provFn, st2, err2,
            Or.inr ⟨rfl, by simp [h1]⟩, ?_, ?_, ?_⟩
          · cases p1 <;> simp [postPackageAndProvenanceRequestHandler, validateLoop, h1, h2]
          · cases p1 <;> simp [postPackageAndProvenanceRequestHandler, validateLoop, h1, h2]
          · simp [h2]
          · cases p1 <;> simp [postPackageAndProvenanceRequestHandler, validateLoop, h1, h2]
          · exact extractAndValidateFormFile_error_cases server B s req _ _ st2 err2
              (by simp [h2])

/-- C3: in multi-field mode, when the package field or the provenance field fails validation
(its content cannot be read, its filename cannot be derived, or overwrite is disallowed and an
object already exists under the derived filename), the handler sends exactly one response,
the error of the first failing field (the package field when it fails, else the provenance
field) with its status (500, 400 and 409 in the order of the three conditions), calls neither
`PutObject` nor `DeleteObject` and leaves the store as it was, also when the other field is
valid. -/
theorem multiField_validation_failure_writes_nothing {σ : Type} (server : Server)
    (chartFn provFn : filenameFromContentFn) (B : Backend σ) (s : σ) (req : Request)
    (hfail :
      ((∃ err, req.FormFile server.ChartPostFormFieldName = some (Except.error err)) ∨
        (∃ content err,
          req.FormFile server.ChartPostFormFieldName = some (Except.ok content) ∧
          chartFn content = Except.error err) ∨
        (∃ content filename,
          req.FormFile server.ChartPostFormFieldName = some (Except.ok content) ∧
          chartFn content = Except.ok filename ∧ server.AllowOverwrite = false ∧
          (B.GetObject s filename).2 = none)) ∨
      ((∃ err, req.FormFile server.ProvPostFormFieldName = some (Except.error err)) ∨
        (∃ content err,
          req.FormFile server.ProvPostFormFieldName = some (Except.ok content) ∧
          provFn content = Except.error err) ∨
        (∃ content filename,
          req.FormFile server.ProvPostFormFieldName = some (Except.ok content) ∧
          provFn content = Except.ok filename ∧ server.AllowOverwrite = false ∧
          (B.GetObject s filename).2 = none))) :
    (postPackageAndProvenanceRequestHandler server chartFn provFn B s req).store = s ∧
    (postPackageAndProvenanceRequestHandler server chartFn provFn B s req).calls = [] ∧
    ∃ field fn status err,
      ((field, fn) = (server.ChartPostFormFieldName, chartFn) ∨
        ((field, fn) = (server.ProvPostFormFieldName, provFn) ∧
          ¬ ((∃ err, req.FormFile server.ChartPostFormFieldName = some (Except.error err)) ∨
            (∃ content err,
              req.FormFile server.ChartPostFormFieldName = some (Except.ok content) ∧
              chartFn content = Except.error err) ∨
            (∃ content filename,
              req.FormFile server.ChartPostFormFieldName = some (Except.ok content) ∧
              chartFn content = Except.ok filename ∧ server.AllowOverwrite = false ∧
              (B.GetObject s filename).2 = none)))) ∧
      (postPackageAndProvenanceRequestHandler server chartFn provFn B s req).responses =
        [⟨status, Body.error err⟩] ∧
      ((status = 500 ∧ req.FormFile field = some (Except.error err)) ∨
       (status = 400 ∧ ∃ content, req.FormFile field = some (Except.ok content) ∧
          fn content = Except.error err) ∨
       (status = 409 ∧ ∃ content filename, req.FormFile field = some (Except.ok content) ∧
          fn content = Except.ok filename ∧ server.AllowOverwrite = false ∧
          (B.GetObject s filename).2 = none ∧ err = filename ++ " already exists")) := by
  have herr :
      (extractAndValidateFormFile server B s req server.ChartPostFormFieldName chartFn).2.2
          ≠ none ∨
      (extractAndValidateFormFile server B s req server.ProvPostFormFieldName provFn).2.2
          ≠ none := by
    rcases hfail with h | h
    · exact Or.inl (extractAndValidateFormFile_error_of_condition server B s req _ _ h)
    · exact Or.inr (extractAndValidateFormFile_error_of_condition server B s req _ _ h)
  obtain ⟨hs, hc, field, fn, status, err, hmem, _, hresp, hreason⟩ :=
    multiField_first_error_is_sent server chartFn provFn B s req herr
  refine ⟨hs, hc, field, fn, status, err, ?_, hresp, hreason⟩
  rcases hmem with hm | ⟨hm, hnone⟩
  · exact Or.inl hm
  · exact Or.inr ⟨hm, fun hcond =>
      extractAndValidateFormFile_error_of_condition server B s req _ _ hcond hnone⟩

/-- Witness of C3 with a valid package field in each case: a provenance field that cannot be
read gives the single 500 response, one whose filename cannot be derived the single 400
response, and one whose derived filename is already stored, with overwrite disallowed, the
single 409 response; nothing is written and the store is as before. -/
theorem multiField_validation_failure_writes_nothing_witness :
    ((postPackageAndProvenanceRequestHandler (sampleServer false) sampleChartFn sampleProvFn
        (memBackend []) []
        (formRequest (some (Except.ok [1])) (some (Except.error "unexpected EOF")))).store
      = [] ∧
     (postPackageAndProvenanceRequestHandler (sampleServer false) sampleChartFn sampleProvFn
        (memBackend []) []
        (formRequest (some (Except.ok [1])) (some (Except.error "unexpected EOF")))).calls
      = [] ∧
     (postPackageAndProvenanceRequestHandler (sampleServer false) sampleChartFn sampleProvFn
        (memBackend []) []
        (formRequest (some (Except.ok [1])) (some (Except.error "unexpected EOF")))).responses
      = [⟨500, Body.error "unexpected EOF"⟩]) ∧
    ((postPackageAndProvenanceRequestHandler (sampleServer false) sampleChartFn sampleProvFn
        (memBackend []) [] (formRequest (some (Except.ok [1])) (some (Except.ok [])))).store
      = [] ∧
     (postPackageAndProvenanceRequestHandler (sampleServer false) sampleChartFn sampleProvFn
        (memBackend []) [] (formRequest (some (Except.ok [1])) (some (Except.ok [])))).calls
      = [] ∧
     (postPackageAndProvenanceRequestHandler (sampleServer false) sampleChartFn sampleProvFn
        (memBackend []) []
        (formRequest (some (Except.ok [1])) (some (Except.ok [])))).responses
      = [⟨400, Body.error "invalid provenance file"⟩]) ∧
    ((postPackageAndProvenanceRequestHandler (sampleServer false) sampleChartFn sampleProvFn
        (memBackend []) [("mychart-0.1.0.tgz.prov", [9])]
        (formRequest (some (Except.ok [1])) (some (Except.ok [2])))).store
      = [("mychart-0.1.0.tgz.prov", [9])] ∧
     (postPackageAndProvenanceRequestHandler (sampleServer false) sampleChartFn sampleProvFn
        (memBackend []) [("mychart-0.1.0.tgz.prov", [9])]
        (formRequest (some (Except.ok [1])) (some (Except.ok [2])))).calls
      = [] ∧
     (postPackageAndProvenanceRequestHandler (sampleServer false) sampleChartFn sampleProvFn
        (memBackend []) [("mychart-0.1.0.tgz.prov", [9])]
        (formRequest (some (Except.ok [1])) (some (Except.ok [2])))).responses
      = [⟨409, Body.error "mychart-0.1.0.tgz.prov already exists"⟩]) :=
  ⟨⟨(multiField_validation_failure_writes_nothing (sampleServer false) sampleChartFn
        sampleProvFn (memBackend []) []
        (formRequest (some (Except.ok [1])) (some (Except.error "unexpected EOF")))
        (Or.inr (Or.inl ⟨"unexpected EOF", rfl⟩))).1,
    (multiField_validation_failure_writes_nothing (sampleServer false) sampleChartFn
        sampleProvFn (memBackend []) []
        (formRequest (some (Except.ok [1])) (some (Except.error "unexpected EOF")))
        (Or.inr (Or.inl ⟨"unexpected EOF", rfl⟩))).2.1,
    by decide⟩,
   ⟨(multiField_validation_failure_writes_nothing (sampleServer false) sampleChartFn
        sampleProvFn (memBackend []) []
        (formRequest (some (Except.ok [1])) (some (Except.ok [])))
        (Or.inr (Or.inr (Or.inl ⟨[], "invalid provenance file", rfl, rfl⟩)))).1,
    (multiField_validation_failure_writes_nothing (sampleServer false) sampleChartFn
        sampleProvFn (memBackend []) []
        (formRequest (some (Except.ok [1])) (some (Except.ok [])))
        (Or.inr (Or.inr (Or.inl ⟨[], "invalid provenance file", rfl, rfl⟩)))).2.1,
    by decide⟩,
   ⟨(multiField_validation_failure_writes_nothing (sampleServer false) sampleChartFn
        sampleProvFn (memBackend []) [("mychart-0.1.0.tgz.prov", [9])]
        (formRequest (some (Except.ok [1])) (some (Except.ok [2])))
        (Or.inr (Or.inr (Or.inr
          ⟨[2], "mychart-0.1.0.tgz.prov", rfl, rfl, rfl, by decide⟩)))).1,
    (multiField_validation_failure_writes_nothing (sampleServer false) sampleChartFn
        sampleProvFn (memBackend []) [("mychart-0.1.0.tgz.prov", [9])]
        (formRequest (some (Except.ok [1])) (some (Except.ok [2])))
        (Or.inr (Or.inr (Or.inr
          ⟨[2], "mychart-0.1.0.tgz.prov", rfl, rfl, rfl, by decide⟩)))).2.1,
    by decide⟩⟩

/-! ## Multi-field upload: the commit step -/

theorem filter_ne_of_lookup_none (t : List (String × List Nat)) (k : String)
    (h : t.lookup k = none) : t.filter (fun p => decide (p.1 ≠ k)) = t := by
  induction t with
  | nil => rfl
  | cons p t ih =>
      obtain ⟨k1, c1⟩ := p
      by_cases hk : k = k1
      · subst hk
        simp [List.lookup] at h
      · have hk2 : k1 ≠ k := fun e => hk e.symm
        have hb : (k == k1) = false := by simpa using hk
        simp only [List.lookup, hb] at h
        rw [List.filter_cons_of_pos (by simpa using hk2), ih h]

/-- In the in-memory store a failed `PutObject` changes nothing. -/
theorem memBackend_failed_put_keeps_store (faulty : List String)
    (t : List (String × List Nat)) (k : String) (c : List Nat)
    (h : ((memBackend faulty).PutObject t k c).2 ≠ none) :
    ((memBackend faulty).PutObject t k c).1 = t := by
  by_cases hk : k ∈ faulty
  · simp [memBackend, hk]
  · simp [memBackend, hk] at h

/-- In the in-memory store `DeleteObject` undoes a `PutObject` on a key that held no object. -/
theorem memBackend_delete_undoes_fresh_put (faulty : List String)
    (t : List (String × List Nat)) (k : String) (c : List Nat)
    (hget : ((memBackend faulty).GetObject t k).2 ≠ none)
    (hput : ((memBackend faulty).PutObject t k c).2 = none) :
    ((memBackend faulty).DeleteObject ((memBackend faulty).PutObject t k c).1 k).1 = t := by
  have hl : t.lookup k = none := by
    cases hl : t.lookup k with
    | none => rfl
    | some v => simp [memBackend, hl] at hget
  by_cases hk : k ∈ faulty
  · simp [memBackend, hk] at hput
  · have hf := filter_ne_of_lookup_none t k hl
    have hf2 : List.filter (fun p => decide (p.1 ≠ k))
        (List.filter (fun p => decide (p.1 ≠ k)) t) = t := by rw [hf, hf]
    simp only [memBackend, if_neg hk, List.lookup, beq_self_eq_true]
    rw [List.filter_cons_of_neg (by simp)]
    exact hf2

/-- In the in-memory store a successful `PutObject` is observed by `GetObject` on its key. -/
theorem memBackend_put_observed (faulty : List String)
    (t : List (String × List Nat)) (k : String) (c : List Nat)
    (hput : ((memBackend faulty).PutObject t k c).2 = none) :
    ((memBackend faulty).GetObject ((memBackend faulty).PutObject t k c).1 k).2 = none ∧
    ((memBackend faulty).GetObject ((memBackend faulty).PutObject t k c).1 k).1.Content
      = c := by
  by_cases hk : k ∈ faulty
  · simp [memBackend, hk] at hput
  · simp [memBackend, hk, List.lookup]

/-- A submission with both fields readable, both filenames derivable and no conflict is
validated to the two candidates, package first. -/
theorem validateLoop_two_candidates {σ : Type} (server : Server)
    (chartFn provFn : filenameFromContentFn) (B : Backend σ) (s : σ) (req : Request)
    (c1 c2 : List Nat) (k1 k2 : String)
    (hf1 : req.FormFile server.ChartPostFormFieldName = some (Except.ok c1))
    (hf2 : req.FormFile server.ProvPostFormFieldName = some (Except.ok c2))
    (hk1 : chartFn c1 = Except.ok k1) (hk2 : provFn c2 = Except.ok k2)
    (hvalid1 : server.AllowOverwrite = true ∨ (B.GetObject s k1).2 ≠ none)
    (hvalid2 : server.AllowOverwrite = true ∨ (B.GetObject s k2).2 ≠ none) :
    validateLoop server B s req
        [(server.ChartPostFormFieldName, chartFn), (server.ProvPostFormFieldName, provFn)] []
      = Except.ok [⟨k1, c1, server.ChartPostFormFieldName⟩,
          ⟨k2, c2, server.ProvPostFormFieldName⟩] := by
  have hv1 : extractAndValidateFormFile server B s req server.ChartPostFormFieldName chartFn
      = (some ⟨k1, c1, server.ChartPostFormFieldName⟩, 200, none) := by
    rcases hvalid1 with ho | hg
    · simp [extractAndValidateFormFile, hf1, hk1, ho]
    · cases hg1 : (B.GetObject s k1).2 with
      | none => exact absurd hg1 hg
      | some e => simp [extractAndValidateFormFile, hf1, hk1, hg1]
  have hv2 : extractAndValidateFormFile server B s req server.ProvPostFormFieldName provFn
      = (some ⟨k2, c2, server.ProvPostFormFieldName⟩, 200, none) := by
    rcases hvalid2 with ho | hg
    · simp [extractAndValidateFormFile, hf2, hk2, ho]
    · cases hg2 : (B.GetObject s k2).2 with
      | none => exact absurd hg2 hg
      | some e => simp [extractAndValidateFormFile, hf2, hk2, hg2]
  simp [validateLoop, hv1, hv2]

/-- C4, counterexample: with overwrite allowed and a package already stored under the derived
filename, a submission whose provenance write fails ends with the compensating delete of the
package, so the store is empty and differs from its state before the request (the last
conjunct is the failing write). -/
theorem multiField_rollback_loses_overwritten_object :
    (postPackageAndProvenanceRequestHandler (sampleServer true) sampleChartFn sampleProvFn
        (memBackend ["mychart-0.1.0.tgz.prov"]) [("mychart-0.1.0.tgz", [7])]
        (formRequest (some (Except.ok [1])) (some (Except.ok [2])))).calls
      = [StoreCall.put "mychart-0.1.0.tgz" [1], StoreCall.put "mychart-0.1.0.tgz.prov" [2],
          StoreCall.delete "mychart-0.1.0.tgz"] ∧
    (postPackageAndProvenanceRequestHandler (sampleServer true) sampleChartFn sampleProvFn
        (memBackend ["mychart-0.1.0.tgz.prov"]) [("mychart-0.1.0.tgz", [7])]
        (formRequest (some (Except.ok [1])) (some (Except.ok [2])))).store = [] ∧
    (postPackageAndProvenanceRequestHandler (sampleServer true) sampleChartFn sampleProvFn
        (memBackend ["mychart-0.1.0.tgz.prov"]) [("mychart-0.1.0.tgz", [7])]
        (formRequest (some (Except.ok [1])) (some (Except.ok [2])))).store
      ≠ [("mychart-0.1.0.tgz", [7])] ∧
    ((memBackend ["mychart-0.1.0.tgz.prov"]).PutObject [("mychart-0.1.0.tgz", [1])]
        "mychart-0.1.0.tgz.prov" [2]).2 = some "write failed" := by
  refine ⟨by decide, by decide, by decide, by decide⟩

/-- A candidate that passes validation while overwrite is disallowed has no object stored
under its filename. -/
theorem extractAndValidateFormFile_fresh {σ : Type} (server : Server) (B : Backend σ)
    (s : σ) (req : Request) (field : String) (fn : filenameFromContentFn)
    (p : packageOrProvenanceFile) (status : Nat) (err : Option String)
    (h : extractAndValidateFormFile server B s req field fn = (some p, status, err))
    (hno : server.AllowOverwrite = false) :
    (B.GetObject s p.filename).2 ≠ none := by
  unfold extractAndValidateFormFile at h
  rcases hf : req.FormFile field with _ | (e | content)
  · simp [hf] at h
  · simp [hf] at h
  · rcases hk : fn content with e | filename
    · simp [hf, hk] at h
    · cases hg : (B.GetObject s filename).2 with
      | none => simp [hf, hk, hno, hg] at h
      | some e =>
          simp [hf, hk, hno, hg] at h
          rw [← h.1]
          simp [hg]

/-- When the two fields validate to two candidates, the first candidate is the one the first
field validated to. -/
theorem validateLoop_two_first {σ : Type} (server : Server) (B : Backend σ) (s : σ)
    (req : Request) (ff1 ff2 : String × filenameFromContentFn)
    (p1 p2 : packageOrProvenanceFile)
    (h : validateLoop server B s req [ff1, ff2] [] = Except.ok [p1, p2]) :
    ∃ status, extractAndValidateFormFile server B s req ff1.1 ff1.2
      = (some p1, status, none) := by
  rcases h1 : extractAndValidateFormFile server B s req ff1.1 ff1.2 with ⟨q1, st1, e1⟩
  rcases h2 : extractAndValidateFormFile server B s req ff2.1 ff2.2 with ⟨q2, st2, e2⟩
  cases e1 with
  | some err1 => simp [validateLoop, h1] at h
  | none =>
      cases q1 with
      | none =>
          cases e2 with
          | some err2 => simp [validateLoop, h1, h2] at h
          | none => cases q2 <;> simp [validateLoop, h1, h2] at h
      | some q =>
          cases e2 with
          | some err2 => simp [validateLoop, h1, h2] at h
          | none =>
              cases q2 with
              | none => simp [validateLoop, h1, h2] at h
              | some q' =>
                  simp [validateLoop, h1, h2] at h
                  exact ⟨st1, by rw [h.1]⟩

/-- C4, amended: in multi-field mode, for every validated submission whose failing write is
the last write of the request. (1) A single candidate whose write fails: the failed write is
the only mutating call, and in a store in which a failed `PutObject` changes nothing the store
on return equals its state before the request. (2) Two candidates, the first write succeeds
and the second fails: the mutating calls are the two writes followed by `DeleteObject` on the
first candidate's filename; and in a store in which a failed `PutObject` changes nothing and
`DeleteObject` undoes a `PutObject` on a key that held no object, the store on return equals
its state before the request when no object was stored under the first filename before the
request, which is the case whenever overwrite is disallowed. -/
theorem multiField_rollback_restores_store {σ : Type} (B : Backend σ)
    (server : Server) (chartFn provFn : filenameFromContentFn) (s : σ) (req : Request) :
    (∀ p : packageOrProvenanceFile,
      validateLoop server B s req
        [(server.ChartPostFormFieldName, chartFn), (server.ProvPostFormFieldName, provFn)] []
        = Except.ok [p] →
      (B.PutObject s p.filename p.content).2 ≠ none →
      (postPackageAndProvenanceRequestHandler server chartFn provFn B s req).calls
        = [StoreCall.put p.filename p.content] ∧
      ((∀ t k c, (B.PutObject t k c).2 ≠ none → (B.PutObject t k c).1 = t) →
        (postPackageAndProvenanceRequestHandler server chartFn provFn B s req).store = s)) ∧
    (∀ p1 p2 : packageOrProvenanceFile,
      validateLoop server B s req
        [(server.ChartPostFormFieldName, chartFn), (server.ProvPostFormFieldName, provFn)] []
        = Except.ok [p1, p2] →
      (B.PutObject s p1.filename p1.content).2 = none →
      (B.PutObject (B.PutObject s p1.filename p1.content).1 p2.filename p2.content).2
        ≠ none →
      (postPackageAndProvenanceRequestHandler server chartFn provFn B s req).calls
        = [StoreCall.put p1.filename p1.content, StoreCall.put p2.filename p2.content,
            StoreCall.delete p1.filename] ∧
      ((∀ t k c, (B.PutObject t k c).2 ≠ none → (B.PutObject t k c).1 = t) →
        (∀ t k c, (B.GetObject t k).2 ≠ none → (B.PutObject t k c).2 = none →
          (B.DeleteObject (B.PutObject t k c).1 k).1 = t) →
        ((B.GetObject s p1.filename).2 ≠ none ∨ server.AllowOverwrite = false) →
        (postPackageAndProvenanceRequestHandler server chartFn provFn B s req).store = s)) := by
  constructor
  · intro p hval hput
    obtain ⟨e, he⟩ : ∃ e, (B.PutObject s p.filename p.content).2 = some e := by
      cases h : (B.PutObject s p.filename p.content).2 with
      | none => exact absurd h hput
      | some e => exact ⟨e, rfl⟩
    refine ⟨?_, fun hkeep => ?_⟩
    · simp [postPackageAndProvenanceRequestHandler, hval, commitLoop, cleanupLoop, he]
    · have hs1 := hkeep _ _ _ hput
      simp [postPackageAndProvenanceRequestHandler, hval, commitLoop, cleanupLoop, he, hs1]
  · intro p1 p2 hval hput1 hput2
    obtain ⟨e2, he2⟩ : ∃ e,
        (B.PutObject (B.PutObject s p1.filename p1.content).1 p2.filename p2.content).2
          = some e := by
      cases h : (B.PutObject (B.PutObject s p1.filename p1.content).1 p2.filename
          p2.content).2 with
      | none => exact absurd h hput2
      | some e => exact ⟨e, rfl⟩
    refine ⟨?_, fun hkeep hundo hfresh => ?_⟩
    · simp [postPackageAndProvenanceRequestHandler, hval, commitLoop, cleanupLoop, hput1,
        he2]
    · have hfresh1 : (B.GetObject s p1.filename).2 ≠ none := by
        rcases hfresh with hf | hno
        · exact hf
        · obtain ⟨st, hv⟩ := validateLoop_two_first server B s req _ _ p1 p2 hval
          exact extractAndValidateFormFile_fresh server B s req _ _ p1 st none hv hno
      have hs2 := hkeep _ _ _ hput2
      have hs3 := hundo s p1.filename p1.content hfresh1 hput1
      simp [postPackageAndProvenanceRequestHandler, hval, commitLoop, cleanupLoop, hput1,
        he2, hs2, hs3]

/-- Witness of C4 (amended) on the in-memory store, overwrite disallowed, empty store: a lone
package whose write fails leaves the store empty; a package and a provenance file whose
provenance write fails end with the package deleted again and the store empty as before. -/
theorem multiField_rollback_restores_store_witness :
    ((postPackageAndProvenanceRequestHandler (sampleServer false) sampleChartFn sampleProvFn
        (memBackend ["mychart-0.1.0.tgz"]) []
        (formRequest (some (Except.ok [1])) none)).calls
      = [StoreCall.put "mychart-0.1.0.tgz" [1]] ∧
    (postPackageAndProvenanceRequestHandler (sampleServer false) sampleChartFn sampleProvFn
        (memBackend ["mychart-0.1.0.tgz"]) []
        (formRequest (some (Except.ok [1])) none)).store = []) ∧
    ((postPackageAndProvenanceRequestHandler (sampleServer false) sampleChartFn sampleProvFn
        (memBackend ["mychart-0.1.0.tgz.prov"]) []
        (formRequest (some (Except.ok [1])) (some (Except.ok [2])))).calls
      = [StoreCall.put "mychart-0.1.0.tgz" [1], StoreCall.put "mychart-0.1.0.tgz.prov" [2],
          StoreCall.delete "mychart-0.1.0.tgz"] ∧
    (postPackageAndProvenanceRequestHandler (sampleServer false) sampleChartFn sampleProvFn
        (memBackend ["mychart-0.1.0.tgz.prov"]) []
        (formRequest (some (Except.ok [1])) (some (Except.ok [2])))).store = []) :=
  ⟨⟨((multiField_rollback_restores_store (memBackend ["mychart-0.1.0.tgz"])
        (sampleServer false) sampleChartFn sampleProvFn []
        (formRequest (some (Except.ok [1])) none)).1
        ⟨"mychart-0.1.0.tgz", [1], "chart"⟩ rfl (by decide)).1,
     ((multiField_rollback_restores_store (memBackend ["mychart-0.1.0.tgz"])
        (sampleServer false) sampleChartFn sampleProvFn []
        (formRequest (some (Except.ok [1])) none)).1
        ⟨"mychart-0.1.0.tgz", [1], "chart"⟩ rfl (by decide)).2
        (memBackend_failed_put_keeps_store _)⟩,
   ⟨((multiField_rollback_restores_store (memBackend ["mychart-0.1.0.tgz.prov"])
        (sampleServer false) sampleChartFn sampleProvFn []
        (formRequest (some (Except.ok [1])) (some (Except.ok [2])))).2
        ⟨"mychart-0.1.0.tgz", [1], "chart"⟩ ⟨"mychart-0.1.0.tgz.prov", [2], "prov"⟩
        rfl (by decide) (by decide)).1,
     ((multiField_rollback_restores_store (memBackend ["mychart-0.1.0.tgz.prov"])
        (sampleServer false) sampleChartFn sampleProvFn []
        (formRequest (some (Except.ok [1])) (some (Except.ok [2])))).2
        ⟨"mychart-0.1.0.tgz", [1], "chart"⟩ ⟨"mychart-0.1.0.tgz.prov", [2], "prov"⟩
        rfl (by decide) (by decide)).2
        (memBackend_failed_put_keeps_store _) (memBackend_delete_undoes_fresh_put _)
        (Or.inr rfl)⟩⟩

/-- C5, evaluated: a valid package and a valid provenance file are submitted and the
provenance write fails; the handler sends the 500 response with the write error and then
still sends the 201 saved response. -/
theorem multiField_sends_saved_after_write_error :
    (postPackageAndProvenanceRequestHandler (sampleServer false) sampleChartFn sampleProvFn
        (memBackend ["mychart-0.1.0.tgz.prov"]) []
        (formRequest (some (Except.ok [1])) (some (Except.ok [2])))).responses
      = [⟨500, Body.error "write failed"⟩, ⟨201, Body.objectSaved⟩] := by
  decide

/-- The loop of the commit step goes on after a failed write: when the package write fails and
the provenance write succeeds, the provenance file stays in the store and both responses are
sent. -/
theorem multiField_continues_after_failed_write :
    (postPackageAndProvenanceRequestHandler (sampleServer false) sampleChartFn sampleProvFn
        (memBackend ["mychart-0.1.0.tgz"]) []
        (formRequest (some (Except.ok [1])) (some (Except.ok [2])))).store
      = [("mychart-0.1.0.tgz.prov", [2])] ∧
    (postPackageAndProvenanceRequestHandler (sampleServer false) sampleChartFn sampleProvFn
        (memBackend ["mychart-0.1.0.tgz"]) []
        (formRequest (some (Except.ok [1])) (some (Except.ok [2])))).responses
      = [⟨500, Body.error "write failed"⟩, ⟨201, Body.objectSaved⟩] := by
  refine ⟨by decide, by decide⟩

/-- C7, evaluated: in single-payload mode a payload whose filename cannot be derived is
answered with status 500 by both handlers (nothing is written), while the multi-field mode
answers the same payload with status 400. -/
theorem singlePayload_derivation_failure_is_500 :
    postPackageRequestHandler (sampleServer false) sampleChartFn (memBackend []) []
        (rawRequest []) = ⟨[], [⟨500, Body.error "invalid package"⟩], []⟩ ∧
    postProvenanceFileRequestHandler (sampleServer false) sampleProvFn (memBackend []) []
        (rawRequest []) = ⟨[], [⟨500, Body.error "invalid provenance file"⟩], []⟩ ∧
    postPackageAndProvenanceRequestHandler (sampleServer false) sampleChartFn sampleProvFn
        (memBackend []) [] (formRequest (some (Except.ok [])) none)
      = ⟨[], [⟨400, Body.error "invalid package"⟩], []⟩ := by
  refine ⟨by decide, by decide, by decide⟩

/-! ## Single-payload upload: overwrite policy -/

/-- C6, counterexample: with overwrite disallowed, in a store that observes every write and
already holds an object under the derived filename, the first run of `postPackageRequestHandler`
on a valid package is answered with 409, not 201. -/
theorem overwrite_policy_first_run_conflicts :
    (∀ (t : List (String × List Nat)) (k : String) (c : List Nat),
      ((memBackend []).PutObject t k c).2 = none ∧
      ((memBackend []).GetObject ((memBackend []).PutObject t k c).1 k).2 = none ∧
      ((memBackend []).GetObject ((memBackend []).PutObject t k c).1 k).1.Content = c) ∧
    sampleChartFn [1] = Except.ok "mychart-0.1.0.tgz" ∧
    (postPackageRequestHandler (sampleServer false) sampleChartFn (memBackend [])
        [("mychart-0.1.0.tgz", [7])] (rawRequest [1])).responses
      = [⟨409, Body.alreadyExists⟩] := by
  refine ⟨fun t k c => ?_, rfl, by decide⟩
  have hput : ((memBackend []).PutObject t k c).2 = none := by simp [memBackend]
  exact ⟨hput, memBackend_put_observed [] t k c hput⟩

/-- C6, amended: in a store in which a successful `PutObject` is observed by a later
`GetObject` on the same key, (1) with overwrite disallowed, a valid package whose derived
filename holds no object yet and whose write succeeds is answered with 201 on the first run
and with 409 on the second, and the second run calls no write and leaves the store unchanged;
(2) with overwrite allowed, two valid packages deriving the same filename whose writes succeed
are both answered with 201, and afterwards `GetObject` on that filename returns the content of
the second. -/
theorem overwrite_policy_single_payload {σ : Type} (B : Backend σ)
    (chartFn : filenameFromContentFn)
    (hobs : ∀ t k c, (B.PutObject t k c).2 = none →
      (B.GetObject (B.PutObject t k c).1 k).2 = none ∧
      (B.GetObject (B.PutObject t k c).1 k).1.Content = c) :
    (∀ (server : Server) (s : σ) (req : Request) (c : List Nat) (k : String),
      server.AllowOverwrite = false → req.GetRawData = Except.ok c →
      chartFn c = Except.ok k → (B.GetObject s k).2 ≠ none → (B.PutObject s k c).2 = none →
      (postPackageRequestHandler server chartFn B s req).responses
        = [⟨201, Body.objectSaved⟩] ∧
      (postPackageRequestHandler server chartFn B
          (postPackageRequestHandler server chartFn B s req).store req).responses
        = [⟨409, Body.alreadyExists⟩] ∧
      (postPackageRequestHandler server chartFn B
          (postPackageRequestHandler server chartFn B s req).store req).calls = [] ∧
      (postPackageRequestHandler server chartFn B
          (postPackageRequestHandler server chartFn B s req).store req).store
        = (postPackageRequestHandler server chartFn B s req).store) ∧
    (∀ (server : Server) (s : σ) (req1 req2 : Request) (c1 c2 : List Nat) (k : String),
      server.AllowOverwrite = true →
      req1.GetRawData = Except.ok c1 → req2.GetRawData = Except.ok c2 →
      chartFn c1 = Except.ok k → chartFn c2 = Except.ok k →
      (B.PutObject s k c1).2 = none →
      (B.PutObject (B.PutObject s k c1).1 k c2).2 = none →
      (postPackageRequestHandler server chartFn B s req1).responses
        = [⟨201, Body.objectSaved⟩] ∧
      (postPackageRequestHandler server chartFn B
          (postPackageRequestHandler server chartFn B s req1).store req2).responses
        = [⟨201, Body.objectSaved⟩] ∧
      (B.GetObject (postPackageRequestHandler server chartFn B
          (postPackageRequestHandler server chartFn B s req1).store req2).store k).2
        = none ∧
      (B.GetObject (postPackageRequestHandler server chartFn B
          (postPackageRequestHandler server chartFn B s req1).store req2).store k).1.Content
        = c2) := by
  constructor
  · intro server s req c k hno hraw hk hfresh hput
    obtain ⟨e, he⟩ : ∃ e, (B.GetObject s k).2 = some e := by
      cases h : (B.GetObject s k).2 with
      | none => exact absurd h hfresh
      | some e => exact ⟨e, rfl⟩
    have hget := (hobs s k c hput).1
    simp [postPackageRequestHandler, postSinglePayload, hraw, hk, hno, he, hput, hget]
  · intro server s req1 req2 c1 c2 k hyes h1 h2 hk1 hk2 hput1 hput2
    have hget := hobs (B.PutObject s k c1).1 k c2 hput2
    simp [postPackageRequestHandler, postSinglePayload, h1, h2, hk1, hk2, hyes, hput1,
      hput2, hget.1, hget.2]

/-- Witness of C6 (amended) on the in-memory store: starting from the empty store, with
overwrite disallowed the same package gives 201 and then 409 and the second run leaves the
store as the first left it; with overwrite allowed two packages of the same filename both give
201 and the stored content is that of the second. -/
theorem overwrite_policy_single_payload_witness :
    ((postPackageRequestHandler (sampleServer false) sampleChartFn (memBackend []) []
        (rawRequest [1])).responses = [⟨201, Body.objectSaved⟩] ∧
      (postPackageRequestHandler (sampleServer false) sampleChartFn (memBackend [])
          (postPackageRequestHandler (sampleServer false) sampleChartFn (memBackend []) []
            (rawRequest [1])).store (rawRequest [1])).responses
        = [⟨409, Body.alreadyExists⟩] ∧
      (postPackageRequestHandler (sampleServer false) sampleChartFn (memBackend [])
          (postPackageRequestHandler (sampleServer false) sampleChartFn (memBackend []) []
            (rawRequest [1])).store (rawRequest [1])).calls = [] ∧
      (postPackageRequestHandler (sampleServer false) sampleChartFn (memBackend [])
          (postPackageRequestHandler (sampleServer false) sampleChartFn (memBackend []) []
            (rawRequest [1])).store (rawRequest [1])).store
        = (postPackageRequestHandler (sampleServer false) sampleChartFn (memBackend []) []
            (rawRequest [1])).store) ∧
    ((postPackageRequestHandler (sampleServer true) sampleChartFn (memBackend []) []
        (rawRequest [1])).responses = [⟨201, Body.objectSaved⟩] ∧
      (postPackageRequestHandler (sampleServer true) sampleChartFn (memBackend [])
          (postPackageRequestHandler (sampleServer true) sampleChartFn (memBackend []) []
            (rawRequest [1])).store (rawRequest [2])).responses
        = [⟨201, Body.objectSaved⟩] ∧
      ((memBackend []).GetObject (postPackageRequestHandler (sampleServer true) sampleChartFn
          (memBackend [])
          (postPackageRequestHandler (sampleServer true) sampleChartFn (memBackend []) []
            (rawRequest [1])).store (rawRequest [2])).store "mychart-0.1.0.tgz").2 = none ∧
      ((memBackend []).GetObject (postPackageRequestHandler (sampleServer true) sampleChartFn
          (memBackend [])
          (postPackageRequestHandler (sampleServer true) sampleChartFn (memBackend []) []
            (rawRequest [1])).store (rawRequest [2])).store "mychart-0.1.0.tgz").1.Content
        = [2]) :=
  ⟨(overwrite_policy_single_payload (memBackend []) sampleChartFn
      (memBackend_put_observed [])).1 (sampleServer false) [] (rawRequest [1]) [1]
      "mychart-0.1.0.tgz" rfl rfl rfl (by decide) (by decide),
   (overwrite_policy_single_payload (memBackend []) sampleChartFn
      (memBackend_put_observed [])).2 (sampleServer true) [] (rawRequest [1]) (rawRequest [2])
      [1] [2] "mychart-0.1.0.tgz" rfl rfl rfl rfl rfl (by decide) (by decide)⟩

/-! ## Per-tenant index derivation -/

/-- The loop of the index handler calls `AddEntry` once for every listed object, in listing
order, with whatever pointer reading the object gave, whether or not fetching and reading
succeeded. -/
theorem indexLoop_eq_foldl {σ ι κ : Type} (B : Backend σ) (s : σ) (I : IndexOps ι κ)
    (cvFromObject : Object → Option κ × Option String) (objects : List Object) (acc : ι) :
    indexLoop B s I cvFromObject objects acc =
      List.foldl I.AddEntry acc
        (objects.map (fun obj => (cvFromObject (B.GetObject s obj.Path).1).1)) := by
  induction objects generalizing acc with
  | nil => simp [indexLoop]
  | cons obj rest ih => simp [indexLoop, ih]

/-- C8, evaluated: the tenant store holds a well-formed package and an object with corrupt
content; reading the corrupt object fails, and `AddEntry` is still called for it, with a nil
chart version, after the call for the well-formed package. -/
theorem indexHandler_adds_entry_for_unparsable_object :
    (sampleChartVersion
        ((memBackend []).GetObject [("good-0.1.0.tgz", [31, 139]), ("bad-0.1.0.tgz", [0])]
          "bad-0.1.0.tgz").1).2 ≠ none ∧
    getOrgRepoIndexFileRequestHandler (memBackend [])
        [("good-0.1.0.tgz", [31, 139]), ("bad-0.1.0.tgz", [0])] recordingIndex
        sampleChartVersion
      = [some "good-0.1.0.tgz", none] := by
  refine ⟨by decide, by decide⟩

/-! ## Per-repository configuration -/

/-- The two branches of `GetRepoConfig`: the key is "repos." followed by the repository name
with every "/" turned into "."; when the string stored there is empty the result is the global
`anonymousget` value with a nil error, and the decoder is not called; otherwise the result is
what decoding the stored string into a struct preset to the global value gives. -/
theorem GetRepoConfig_branches (conf : Config)
    (yamlUnmarshal : String → RepoConfig → RepoConfig × Option String) (repo : String) :
    (conf.GetString
        ("repos." ++ String.mk (repo.data.map (fun c => if c = '/' then '.' else c))) = "" →
      GetRepoConfig conf yamlUnmarshal repo
        = ({ AnonymousGet := conf.GetBool "anonymousget" }, none)) ∧
    (conf.GetString
        ("repos." ++ String.mk (repo.data.map (fun c => if c = '/' then '.' else c))) ≠ "" →
      GetRepoConfig conf yamlUnmarshal repo
        = yamlUnmarshal
            (conf.GetString
              ("repos." ++ String.mk (repo.data.map (fun c => if c = '/' then '.' else c))))
            { AnonymousGet := conf.GetBool "anonymousget" }) := by
  have hkey := stringsReplaceAll_slash repo
  refine ⟨fun h => ?_, fun h => ?_⟩
  · simp [GetRepoConfig, hkey, h]
  · simp [GetRepoConfig, hkey, h]

/-- C10, evaluated: on the configuration of `repo_test.go` (global `anonymousget` true,
`repos.org1.repo2.anonymousget` false) the key `repos.org1.repo2` names a nested settings map,
for which `GetString` gives the empty string; `GetRepoConfig` therefore returns the global
value `true` with a nil error for `org1/repo2`, whatever the YAML decoder does, and the
per-repository value does not override it. -/
theorem GetRepoConfig_ignores_nested_repo_settings
    (yamlUnmarshal : String → RepoConfig → RepoConfig × Option String) :
    (viperConfig repoTestSettings).GetBool "anonymousget" = true ∧
    (viperConfig repoTestSettings).GetBool "repos.org1.repo2.anonymousget" = false ∧
    (viperConfig repoTestSettings).GetString "repos.org1.repo2" = "" ∧
    GetRepoConfig (viperConfig repoTestSettings) yamlUnmarshal "org1/repo2"
      = ({ AnonymousGet := true }, none) := by
  have hkey : stringsReplaceAll "org1/repo2" "/" "." = "org1.repo2" := by decide
  have hget : (viperConfig repoTestSettings).GetString "repos.org1.repo2" = "" := by
    decide
  have hbool : (viperConfig repoTestSettings).GetBool "anonymousget" = true := by decide
  refine ⟨hbool, by decide, hget, ?_⟩
  simp [GetRepoConfig, hkey, hget, hbool]

end ChartMuseum
